import Mathlib

/-!
Verification of the keep-alive connection engine of `src/server.ts`.

The per-connection control flow of `handleKeepAliveConn` / `scheduleReadRequest` /
`processRequest` is embedded as a trace-producing interpreter `runSession`:
each request cycle consumes one `CycleInput` (the outcome of `readRequest`
together with the status the handler submitted) and the interpreter records the
observable events of the cycle in source order.  The post-handler decision code
(lines 240-261 of server.ts) is the pure function `decideNext`.  JavaScript
numbers that may legitimately be `undefined` are `Option Int`; `Math.min`
applied to `undefined` does not yield a number, so it is mapped over the option.
-/

/-- The `ServeOptions` type of server.ts (lines 111-118): both timeout fields are
optional numbers.  The `cancel` promise is not part of the timeout model. -/
structure ServeOptions where
  keepAliveTimeout : Option Int
  readTimeout : Option Int
deriving DecidableEq, Repr

/-- The `KeepAlive` type of server.ts (lines 75-78): peer-declared keep-alive
preference, `timeout` in seconds and `max` remaining requests. -/
structure KeepAlive where
  timeout : Int
  max : Int
deriving DecidableEq, Repr

/-- The fields of an incoming request that `processRequest` inspects:
the raw url, the header map and the optional keep-alive declaration. -/
structure RequestData where
  url : String
  headers : List (String × String)
  keepAlive : Option KeepAlive
deriving DecidableEq, Repr

/-- Matching `baseReq.url` against the regular expression `^\/`
(server.ts line 223): does the raw url begin with the character `/`? -/
def urlStartsWithSlash (url : String) : Bool :=
  url.data.head? == some '/'

/-- Embeds `Headers.get`: look the (lower-cased) header name up, `none` when absent. -/
def headersGet (hs : List (String × String)) (name : String) : Option String :=
  (hs.find? (fun p => p.1 == name)).map (fun p => p.2)

/-- One request cycle's external input: the outcome of `readRequest`
(`.error` for a timeout or malformed wire input) and the status of the
response the handler submitted (`req.respondedStatus()`, `none` when the
handler never responded). -/
structure CycleInput where
  readResult : Except Unit RequestData
  respondedStatus : Option Int
deriving Repr

/-- The errors thrown by `processRequest` after a successful cycle
(server.ts lines 245-250). -/
inductive SessionError where
  | keepAliveEnded
  | connectionCloseHeader
deriving DecidableEq, Repr

/-- server.ts lines 240-261: the decision taken after `await handler(req)`,
`await responded` and `await req.body.close()`.  Returns `.ok none` to stop
without closing (status 101), `.ok (some next)` to loop with the next
options, `.error` when the connection must be closed. -/
def decideNext (originalOpts opts : ServeOptions) (req : RequestData)
    (respondedStatus : Option Int) : Except SessionError (Option ServeOptions) :=
  if respondedStatus = some 101 then
    .ok none
  else
    let keepAliveTimeout := originalOpts.keepAliveTimeout
    if req.keepAlive.any (fun ka => ka.max ≤ 0) then
      .error .keepAliveEnded
    else if headersGet req.headers "connection" = some "close" then
      .error .connectionCloseHeader
    else
      let keepAliveTimeout :=
        match req.keepAlive with
        | some ka => keepAliveTimeout.map (fun k => min k (ka.timeout * 1000))
        | none => keepAliveTimeout
      .ok (some { keepAliveTimeout := keepAliveTimeout, readTimeout := opts.readTimeout })

/-- Observable events of one connection session, tagged with the cycle
index.  `readStart` records the `ServeOptions` passed to `readRequest`. -/
inductive SEvent where
  | readStart (n : Nat) (opts : ServeOptions)
  | readDone (n : Nat)
  | handlerInvoked (n : Nat)
  | flushed (n : Nat)
  | bodyClosed (n : Nat)
  | stopped (n : Nat)
  | connClosed (n : Nat)
deriving DecidableEq, Repr

/-- How a session run ends: still awaiting wire input, stopped after a 101
upgrade without closing, or closed the connection. -/
inductive Outcome where
  | pendingRead
  | upgraded
  | closed
deriving DecidableEq, Repr

/-- The per-connection loop `scheduleReadRequest` / `processRequest`
(server.ts lines 203-262).  The promise chain of the source is strictly
sequential per connection — the next `readRequest` is issued only from the
`.then` continuation of the previous `processRequest` — so it is embedded as
a recursive interpreter over the cycle inputs.  A thrown error is caught by
`scheduleReadRequest`'s `.catch`, which closes the connection. -/
def runSession (originalOpts : ServeOptions) :
    ServeOptions → List CycleInput → Nat → List SEvent × Outcome
  | opts, [], n => ([.readStart n opts], .pendingRead)
  | opts, c :: rest, n =>
    match c.readResult with
    | .error _ => ([.readStart n opts, .connClosed n], .closed)
    | .ok req =>
      if urlStartsWithSlash req.url then
        let evs : List SEvent :=
          [.readStart n opts, .readDone n, .handlerInvoked n, .flushed n, .bodyClosed n]
        match decideNext originalOpts opts req c.respondedStatus with
        | .error _ => (evs ++ [.connClosed n], .closed)
        | .ok none => (evs ++ [.stopped n], .upgraded)
        | .ok (some next) =>
          let t := runSession originalOpts next rest (n + 1)
          (evs ++ t.1, t.2)
      else
        ([.readStart n opts, .readDone n, .connClosed n], .closed)

/-- server.ts lines 196-201: the first read of a fresh connection ignores
`keepAliveTimeout` and uses `readTimeout` for both fields. -/
def firstCycleOpts (opts : ServeOptions) : ServeOptions :=
  { keepAliveTimeout := opts.readTimeout, readTimeout := opts.readTimeout }

/-- The function `handleKeepAliveConn` (server.ts lines 184-263) as a whole-session run. -/
def handleKeepAliveConn (opts : ServeOptions) (inputs : List CycleInput) :
    List SEvent × Outcome :=
  runSession opts (firstCycleOpts opts) inputs 0

/-- The event block emitted by one successful cycle up to the body close. -/
def sessionBlock (n : Nat) (opts : ServeOptions) : List SEvent :=
  [.readStart n opts, .readDone n, .handlerInvoked n, .flushed n, .bodyClosed n]

/-!
The Response Dispatch Queue.  The session enqueues every submitted response
into `promiseWaitQueue(resp => writeResponse(bufWriter, resp))`
(server.ts lines 192-194, 218-221).  `promiseWaitQueue` itself lives in
`util.ts`, which is not among the source files, so its behaviour is taken
from the specification.
-/

/-- Modelled from the spec: `promiseWaitQueue` of `util.ts` is not among the
source files; §4.4 specifies it as a per-connection FIFO drained by a single
serialized worker, one job at a time.  Jobs are numbered by submission order:
`nextId` is the number of jobs submitted so far, `pending` holds submitted
jobs whose write has not started, `active` the job currently being written,
`written` the fully written jobs in the order their bytes hit the wire. -/
structure QueueState where
  nextId : Nat
  pending : List Nat
  active : Option Nat
  written : List Nat
deriving DecidableEq, Repr

/-- The queue of a fresh connection: nothing submitted, nothing written. -/
def initQueue : QueueState :=
  { nextId := 0, pending := [], active := none, written := [] }

/-- Modelled from the spec: the atomic transitions of the dispatch queue.
`enqueue` appends a new job (a handler completed and submitted its
response, in any order relative to other jobs); `startWrite` lets the
worker begin the front pending job, only when no write is in progress;
`finishWrite` completes the active job's write. -/
inductive QStep : QueueState → QueueState → Prop where
  | enqueue (s : QueueState) :
      QStep s { s with pending := s.pending ++ [s.nextId], nextId := s.nextId + 1 }
  | startWrite (s : QueueState) (j : Nat) (rest : List Nat)
      (hp : s.pending = j :: rest) (ha : s.active = none) :
      QStep s { s with pending := rest, active := some j }
  | finishWrite (s : QueueState) (j : Nat) (ha : s.active = some j) :
      QStep s { s with active := none, written := s.written ++ [j] }

/-- Queue states reachable from the fresh-connection queue by any
interleaving of submissions and worker steps. -/
inductive QReach : QueueState → Prop where
  | init : QReach initQueue
  | step {s t : QueueState} : QReach s → QStep s t → QReach t

/-!
The Listener Supervisor, `listenInternal` (server.ts lines 147-181).
`dResolved` records whether the internal deferred cancellation promise has
been resolved, `listenerCloseCount` how often `listener.close()` ran, and
`closed` the `closed` flag guarding both `close` and `acceptRoutine`.
-/

/-- The mutable state of `listenInternal`. -/
structure SupervisorState where
  dResolved : Bool
  listenerCloseCount : Nat
  closed : Bool
deriving DecidableEq, Repr

/-- The state right after `listenInternal` sets its locals up. -/
def initSupervisor : SupervisorState :=
  { dResolved := false, listenerCloseCount := 0, closed := false }

/-- The `close` closure (server.ts lines 163-169): resolve the deferred, close the
listener and set the flag — but only when not yet closed. -/
def superviseClose (s : SupervisorState) : SupervisorState :=
  if s.closed then s
  else { dResolved := true, listenerCloseCount := s.listenerCloseCount + 1, closed := true }

/-- How one pending `throwIfCancelled(listener.accept())` resolves:
with a connection, by losing the race to the cancellation signal, or with
an accept failure. -/
inductive AcceptOutcome where
  | accepted
  | cancelled
  | failed
deriving DecidableEq, Repr

/-- One iteration of `acceptRoutine` (server.ts lines 170-178): returns the
new supervisor state, whether a connection session was spawned, and whether
another accept iteration was scheduled.  When `closed` is already set the
routine returns at once; otherwise a connection spawns a session and
recurses, while cancellation or an accept error runs `close`. -/
def acceptRoutine (s : SupervisorState) (o : AcceptOutcome) :
    SupervisorState × Bool × Bool :=
  if s.closed then (s, false, false)
  else
    match o with
    | .accepted => (s, true, true)
    | .cancelled => (superviseClose s, false, false)
    | .failed => (superviseClose s, false, false)

/-!
The public entry points and their option handling (server.ts lines 128-145).
`listenAndServe` passes its options through `initServeOptions` before
serving; `listenAndServeTls` hands its (possibly absent) options directly to
`listenInternal`, whose default for an absent argument is the empty options
object.
-/

/-- Modelled from the spec: `initServeOptions` of `serveio.ts` is not among
the source files; per the spec it fills the documented defaults
`keepAliveTimeout = 75000` ms and `readTimeout = 75000` ms for fields the
caller left unset. -/
def initServeOptions (opts : ServeOptions) : ServeOptions :=
  { keepAliveTimeout := some (opts.keepAliveTimeout.getD 75000),
    readTimeout := some (opts.readTimeout.getD 75000) }

/-- The empty options object `{}`, both timeout fields unset. -/
def emptyServeOptions : ServeOptions :=
  { keepAliveTimeout := none, readTimeout := none }

/-- server.ts lines 137-145: the options `listenAndServe` serves with —
`initServeOptions` is applied to the caller's options (default `{}`). -/
def listenAndServeOpts (opts : Option ServeOptions) : ServeOptions :=
  initServeOptions (opts.getD emptyServeOptions)

/-- server.ts lines 128-135: the options `listenAndServeTls` serves with —
the caller's options are forwarded unchanged to `listenInternal`, where an
absent argument defaults to `{}`; no `initServeOptions` is applied. -/
def listenAndServeTlsOpts (opts : Option ServeOptions) : ServeOptions :=
  opts.getD emptyServeOptions

/-!
Ordering of session events.  Within one cycle the interpreter emits events
in source order, and all events of a later cycle come strictly later; the
rank function makes this a single strict sortedness invariant.
-/

/-- Rank of an event: cycle `n`'s events occupy ranks `7n .. 7n+6` in the
order the source performs them. -/
def rank : SEvent → Nat
  | .readStart n _ => 7 * n
  | .readDone n => 7 * n + 1
  | .handlerInvoked n => 7 * n + 2
  | .flushed n => 7 * n + 3
  | .bodyClosed n => 7 * n + 4
  | .stopped n => 7 * n + 5
  | .connClosed n => 7 * n + 6

/-- The trace of any session run is strictly sorted by rank, and every
event of a run started at cycle `n` has rank at least `7n`. -/
theorem runSession_rank_sorted (originalOpts : ServeOptions) (inputs : List CycleInput) :
    ∀ (opts : ServeOptions) (n : Nat),
      ((runSession originalOpts opts inputs n).1).Pairwise (fun a b => rank a < rank b) ∧
      ∀ e ∈ (runSession originalOpts opts inputs n).1, 7 * n ≤ rank e := by
  induction inputs with
  | nil =>
    intro opts n
    simp [runSession, rank]
  | cons c rest ih =>
    intro opts n
    cases hr : c.readResult with
    | error e =>
      refine ⟨?_, ?_⟩ <;> simp [runSession, hr, rank]
    | ok req =>
      by_cases hu : urlStartsWithSlash req.url
      · cases hd : decideNext originalOpts opts req c.respondedStatus with
        | error err =>
          refine ⟨?_, ?_⟩ <;> simp [runSession, hr, hu, hd, rank]
        | ok o =>
          cases o with
          | none =>
            refine ⟨?_, ?_⟩ <;> simp [runSession, hr, hu, hd, rank]
          | some next =>
            obtain ⟨hp, hb⟩ := ih next (n + 1)
            have htr : (runSession originalOpts opts (c :: rest) n).1 =
                [SEvent.readStart n opts, SEvent.readDone n, SEvent.handlerInvoked n,
                  SEvent.flushed n, SEvent.bodyClosed n] ++
                  (runSession originalOpts next rest (n + 1)).1 := by
              simp [runSession, hr, hu, hd]
            rw [htr]
            constructor
            · rw [List.pairwise_append]
              refine ⟨by simp [rank], hp, ?_⟩
              intro a ha b hb'
              have h1 : rank a ≤ 7 * n + 4 := by
                simp [rank] at ha ⊢
                rcases ha with h | h | h | h | h <;> subst h <;> simp [rank]
              have h2 : 7 * (n + 1) ≤ rank b := hb b hb'
              omega
            · intro e he
              rcases List.mem_append.mp he with h | h
              · simp [rank] at h ⊢
                rcases h with h | h | h | h | h <;> subst h <;> simp [rank]
              · have := hb e h
                omega
      · refine ⟨?_, ?_⟩ <;> simp [runSession, hr, hu, rank]

/-- In a strictly rank-sorted trace, an event of smaller rank sits at a
smaller position. -/
theorem rank_position_lt {t : List SEvent}
    (hp : t.Pairwise (fun a b => rank a < rank b))
    (i j : Fin t.length) (h : rank (t.get i) < rank (t.get j)) :
    (i : Nat) < (j : Nat) := by
  rcases lt_trichotomy (i : Nat) (j : Nat) with hlt | heq | hgt
  · exact hlt
  · exact absurd h (by rw [Fin.ext heq]; exact lt_irrefl _)
  · have hji : j < i := hgt
    have := List.pairwise_iff_get.mp hp j i hji
    omega

/-- Every session run starts by issuing a read with the options it was
entered with: the trace's first event is `readStart n opts`. -/
theorem runSession_head (originalOpts opts : ServeOptions) (inputs : List CycleInput)
    (n : Nat) :
    ((runSession originalOpts opts inputs n).1).head? = some (SEvent.readStart n opts) := by
  cases inputs with
  | nil => simp [runSession]
  | cons c rest =>
    cases hr : c.readResult with
    | error e => simp [runSession, hr]
    | ok req =>
      by_cases hu : urlStartsWithSlash req.url
      · cases hd : decideNext originalOpts opts req c.respondedStatus with
        | error err => simp [runSession, hr, hu, hd]
        | ok o => cases o <;> simp [runSession, hr, hu, hd]
      · simp [runSession, hr, hu]

/-!
Concrete sample data used by the witnesses.
-/

/-- The options after `initServeOptions` with both defaults in force. -/
def defaultOptsModel : ServeOptions :=
  { keepAliveTimeout := some 75000, readTimeout := some 75000 }

/-- A plain request: root url, no headers, no keep-alive declaration. -/
def plainReq : RequestData :=
  { url := "/", headers := [], keepAlive := none }

/-- A cycle that reads `plainReq` and whose handler responds with 200. -/
def okCycle : CycleInput :=
  { readResult := .ok plainReq, respondedStatus := some 200 }

/-- A cycle whose handler responds with 101 (switching protocols). -/
def upgradeCycle : CycleInput :=
  { readResult := .ok plainReq, respondedStatus := some 101 }

/-- A request carrying the `connection: close` header. -/
def closeHeaderReq : RequestData :=
  { url := "/", headers := [("connection", "close")], keepAlive := none }

/-- A cycle reading `closeHeaderReq`, handler responds 200. -/
def closeHeaderCycle : CycleInput :=
  { readResult := .ok closeHeaderReq, respondedStatus := some 200 }

/-- A request whose keep-alive budget is exhausted (`max = 0`). -/
def exhaustedReq : RequestData :=
  { url := "/", headers := [], keepAlive := some { timeout := 5, max := 0 } }

/-- A cycle reading `exhaustedReq`, handler responds 200. -/
def exhaustedCycle : CycleInput :=
  { readResult := .ok exhaustedReq, respondedStatus := some 200 }

/-- A request declaring keep-alive `timeout = 5` s with budget left. -/
def kaReq : RequestData :=
  { url := "/", headers := [], keepAlive := some { timeout := 5, max := 10 } }

/-- A cycle reading `kaReq`, handler responds 200. -/
def kaCycle : CycleInput :=
  { readResult := .ok kaReq, respondedStatus := some 200 }

/-- A request whose raw url does not begin with `/`. -/
def badUrlReq : RequestData :=
  { url := "foo", headers := [], keepAlive := none }

/-- A cycle reading `badUrlReq`; no response is ever submitted. -/
def badUrlCycle : CycleInput :=
  { readResult := .ok badUrlReq, respondedStatus := none }

/-- C2: reads on one connection are strictly sequential.  In every session
trace, the events recording that cycle `n`'s handler returned
(`handlerInvoked n`), that its submitted response was fully flushed
(`flushed n`), and that its body stream was closed (`bodyClosed n`) all sit
at strictly smaller positions than the start of any later read
(`readStart m` with `n < m`): the session does not begin reading the next
request before all three have happened. -/
theorem c2_reads_strictly_sequential (originalOpts opts : ServeOptions)
    (inputs : List CycleInput) (n m : Nat) (ropts : ServeOptions)
    (hnm : n < m)
    (i j : Fin ((runSession originalOpts opts inputs 0).1.length))
    (hi : (runSession originalOpts opts inputs 0).1.get i = SEvent.handlerInvoked n ∨
          (runSession originalOpts opts inputs 0).1.get i = SEvent.flushed n ∨
          (runSession originalOpts opts inputs 0).1.get i = SEvent.bodyClosed n)
    (hj : (runSession originalOpts opts inputs 0).1.get j = SEvent.readStart m ropts) :
    (i : Nat) < (j : Nat) := by
  have hp := (runSession_rank_sorted originalOpts inputs opts 0).1
  apply rank_position_lt hp
  have hrj : rank ((runSession originalOpts opts inputs 0).1.get j) = 7 * m := by
    rw [hj]
    simp [rank]
  rcases hi with h | h | h <;> rw [h, hrj] <;> simp [rank] <;> omega

/-- Witness for C2 on two pipelined 200-cycles: `flushed 0` sits at
position 3 of the trace, the second read's `readStart 1` at position 5. -/
theorem c2_witness :
    (runSession defaultOptsModel defaultOptsModel [okCycle, okCycle] 0).1.get
        ⟨3, by decide⟩ = SEvent.flushed 0 ∧
    (runSession defaultOptsModel defaultOptsModel [okCycle, okCycle] 0).1.get
        ⟨5, by decide⟩ = SEvent.readStart 1 defaultOptsModel ∧
    (3 : Nat) < (5 : Nat) :=
  ⟨by decide, by decide,
    c2_reads_strictly_sequential defaultOptsModel defaultOptsModel [okCycle, okCycle]
      0 1 defaultOptsModel (by decide) ⟨3, by decide⟩ ⟨5, by decide⟩
      (Or.inr (Or.inl (by decide))) (by decide)⟩

/-- C4: when the handler's submitted response has status 101, the cycle
runs to the flush and body close and then the session stops its loop with
outcome `upgraded`; no `connClosed` event ever occurs, i.e. the connection
is not closed. -/
theorem c4_upgrade_stops_loop_without_close (originalOpts opts : ServeOptions)
    (c : CycleInput) (rest : List CycleInput) (n : Nat) (req : RequestData)
    (hr : c.readResult = .ok req) (hu : urlStartsWithSlash req.url = true)
    (hs : c.respondedStatus = some 101) :
    runSession originalOpts opts (c :: rest) n =
      (sessionBlock n opts ++ [SEvent.stopped n], Outcome.upgraded) ∧
    ∀ k, SEvent.connClosed k ∉ (runSession originalOpts opts (c :: rest) n).1 := by
  have hmain : runSession originalOpts opts (c :: rest) n =
      (sessionBlock n opts ++ [SEvent.stopped n], Outcome.upgraded) := by
    simp [runSession, hr, hu, hs, decideNext, sessionBlock]
  refine ⟨hmain, ?_⟩
  intro k
  rw [hmain]
  simp [sessionBlock]

/-- Witness for C4: a 101 cycle on default options stops with outcome
`upgraded` after flushing and closing the body, and never closes. -/
theorem c4_witness :
    runSession defaultOptsModel defaultOptsModel [upgradeCycle] 0 =
      (sessionBlock 0 defaultOptsModel ++ [SEvent.stopped 0], Outcome.upgraded) :=
  (c4_upgrade_stops_loop_without_close defaultOptsModel defaultOptsModel upgradeCycle []
    0 plainReq rfl (by decide) rfl).1

/-- C5: a request whose `connection` header equals `close` and whose
response is not a 101 upgrade ends the session: after the response is fully
flushed and the body closed, the connection is closed and no further read
is ever started on it. -/
theorem c5_connection_close_header_closes (originalOpts opts : ServeOptions)
    (c : CycleInput) (rest : List CycleInput) (n : Nat) (req : RequestData)
    (hr : c.readResult = .ok req) (hu : urlStartsWithSlash req.url = true)
    (hs : c.respondedStatus ≠ some 101)
    (hcl : headersGet req.headers "connection" = some "close") :
    runSession originalOpts opts (c :: rest) n =
      (sessionBlock n opts ++ [SEvent.connClosed n], Outcome.closed) ∧
    ∀ m ropts, n < m →
      SEvent.readStart m ropts ∉ (runSession originalOpts opts (c :: rest) n).1 := by
  have hmain : runSession originalOpts opts (c :: rest) n =
      (sessionBlock n opts ++ [SEvent.connClosed n], Outcome.closed) := by
    by_cases hka : req.keepAlive.any (fun ka => ka.max ≤ 0)
    · simp [runSession, hr, hu, decideNext, hs, hka, sessionBlock]
    · simp [runSession, hr, hu, decideNext, hs, hka, hcl, sessionBlock]
  refine ⟨hmain, ?_⟩
  intro m ropts hm
  rw [hmain]
  simp [sessionBlock]
  omega

/-- Witness for C5: a `connection: close` request on default options closes
the connection right after the flush and body close. -/
theorem c5_witness :
    runSession defaultOptsModel defaultOptsModel [closeHeaderCycle] 0 =
      (sessionBlock 0 defaultOptsModel ++ [SEvent.connClosed 0], Outcome.closed) :=
  (c5_connection_close_header_closes defaultOptsModel defaultOptsModel closeHeaderCycle []
    0 closeHeaderReq rfl (by decide) (by decide) (by decide)).1

/-- C6: a completed cycle (response flushed, body closed, status not 101)
whose declared keep-alive budget `max` is not positive is terminal: the
connection is closed instead of another request being read. -/
theorem c6_exhausted_keepalive_budget_closes (originalOpts opts : ServeOptions)
    (c : CycleInput) (rest : List CycleInput) (n : Nat) (req : RequestData)
    (ka : KeepAlive)
    (hr : c.readResult = .ok req) (hu : urlStartsWithSlash req.url = true)
    (hs : c.respondedStatus ≠ some 101)
    (hka : req.keepAlive = some ka) (hmax : ka.max ≤ 0) :
    runSession originalOpts opts (c :: rest) n =
      (sessionBlock n opts ++ [SEvent.connClosed n], Outcome.closed) ∧
    ∀ m ropts, n < m →
      SEvent.readStart m ropts ∉ (runSession originalOpts opts (c :: rest) n).1 := by
  have hmain : runSession originalOpts opts (c :: rest) n =
      (sessionBlock n opts ++ [SEvent.connClosed n], Outcome.closed) := by
    simp [runSession, hr, hu, decideNext, hs, hka, hmax, sessionBlock]
  refine ⟨hmain, ?_⟩
  intro m ropts hm
  rw [hmain]
  simp [sessionBlock]
  omega

/-- Witness for C6: a request declaring keep-alive `max = 0` closes the
connection after its own response completes. -/
theorem c6_witness :
    runSession defaultOptsModel defaultOptsModel [exhaustedCycle] 0 =
      (sessionBlock 0 defaultOptsModel ++ [SEvent.connClosed 0], Outcome.closed) :=
  (c6_exhausted_keepalive_budget_closes defaultOptsModel defaultOptsModel exhaustedCycle []
    0 exhaustedReq { timeout := 5, max := 0 } rfl (by decide) (by decide) rfl
    (by decide)).1

/-- C10: a successfully read request whose url does not begin with `/`
raises `malformed url` before the handler runs: the connection is closed,
the session ends, and no `handlerInvoked` event occurs for any cycle. -/
theorem c10_malformed_url_closes_before_handler (originalOpts opts : ServeOptions)
    (c : CycleInput) (rest : List CycleInput) (n : Nat) (req : RequestData)
    (hr : c.readResult = .ok req) (hu : urlStartsWithSlash req.url = false) :
    runSession originalOpts opts (c :: rest) n =
      ([SEvent.readStart n opts, SEvent.readDone n, SEvent.connClosed n], Outcome.closed) ∧
    ∀ m, SEvent.handlerInvoked m ∉ (runSession originalOpts opts (c :: rest) n).1 := by
  have hmain : runSession originalOpts opts (c :: rest) n =
      ([SEvent.readStart n opts, SEvent.readDone n, SEvent.connClosed n], Outcome.closed) := by
    simp [runSession, hr, hu]
  refine ⟨hmain, ?_⟩
  intro m
  rw [hmain]
  simp

/-- Witness for C10: the url `foo` is rejected and the connection closed
with the handler never invoked. -/
theorem c10_witness :
    runSession defaultOptsModel defaultOptsModel [badUrlCycle] 0 =
      ([SEvent.readStart 0 defaultOptsModel, SEvent.readDone 0, SEvent.connClosed 0],
        Outcome.closed) :=
  (c10_malformed_url_closes_before_handler defaultOptsModel defaultOptsModel badUrlCycle []
    0 badUrlReq rfl (by decide)).1

/-- C3: keep-alive timeout negotiation.  After a completed cycle (read ok,
status not 101, no `connection: close`): when the peer declared keep-alive
`timeout = T` with positive budget and the configured keep-alive timeout is
`D`, the next read is started with effective keep-alive timeout
`min D (T * 1000)`; when the peer declared no keep-alive preference, the
next read is started with the configured keep-alive timeout unchanged. -/
theorem c3_keepalive_timeout_negotiation (originalOpts opts : ServeOptions)
    (c : CycleInput) (rest : List CycleInput) (n : Nat) (req : RequestData)
    (hr : c.readResult = .ok req) (hu : urlStartsWithSlash req.url = true)
    (hs : c.respondedStatus ≠ some 101)
    (hcl : headersGet req.headers "connection" ≠ some "close") :
    (∀ T M D, req.keepAlive = some { timeout := T, max := M } → 0 < M →
      originalOpts.keepAliveTimeout = some D →
      runSession originalOpts opts (c :: rest) n =
        (sessionBlock n opts ++
          (runSession originalOpts
            { keepAliveTimeout := some (min D (T * 1000)),
              readTimeout := opts.readTimeout } rest (n + 1)).1,
         (runSession originalOpts
            { keepAliveTimeout := some (min D (T * 1000)),
              readTimeout := opts.readTimeout } rest (n + 1)).2) ∧
      ((runSession originalOpts
          { keepAliveTimeout := some (min D (T * 1000)),
            readTimeout := opts.readTimeout } rest (n + 1)).1).head? =
        some (SEvent.readStart (n + 1)
          { keepAliveTimeout := some (min D (T * 1000)),
            readTimeout := opts.readTimeout })) ∧
    (req.keepAlive = none →
      runSession originalOpts opts (c :: rest) n =
        (sessionBlock n opts ++
          (runSession originalOpts
            { keepAliveTimeout := originalOpts.keepAliveTimeout,
              readTimeout := opts.readTimeout } rest (n + 1)).1,
         (runSession originalOpts
            { keepAliveTimeout := originalOpts.keepAliveTimeout,
              readTimeout := opts.readTimeout } rest (n + 1)).2) ∧
      ((runSession originalOpts
          { keepAliveTimeout := originalOpts.keepAliveTimeout,
            readTimeout := opts.readTimeout } rest (n + 1)).1).head? =
        some (SEvent.readStart (n + 1)
          { keepAliveTimeout := originalOpts.keepAliveTimeout,
            readTimeout := opts.readTimeout })) := by
  constructor
  · intro T M D hka hM hD
    have hM' : ¬ ((M : Int) ≤ 0) := not_le.mpr hM
    have hd : decideNext originalOpts opts req c.respondedStatus =
        .ok (some { keepAliveTimeout := some (min D (T * 1000)),
                    readTimeout := opts.readTimeout }) := by
      simp [decideNext, hs, hka, hcl, hD, hM']
    refine ⟨?_, runSession_head _ _ _ _⟩
    simp [runSession, hr, hu, hd, sessionBlock]
  · intro hka
    have hd : decideNext originalOpts opts req c.respondedStatus =
        .ok (some { keepAliveTimeout := originalOpts.keepAliveTimeout,
                    readTimeout := opts.readTimeout }) := by
      simp [decideNext, hs, hka, hcl]
    refine ⟨?_, runSession_head _ _ _ _⟩
    simp [runSession, hr, hu, hd, sessionBlock]

/-- Witness for C3: with defaults `D = 75000` and a peer declaring
`timeout = 5` s, the next read starts with keep-alive timeout
`min 75000 5000 = 5000`; with no declaration it starts with `75000`. -/
theorem c3_witness :
    ((runSession defaultOptsModel
        { keepAliveTimeout := some (min 75000 (5 * 1000)), readTimeout := some 75000 }
        [] 1).1).head? =
      some (SEvent.readStart 1
        { keepAliveTimeout := some (min 75000 (5 * 1000)), readTimeout := some 75000 }) ∧
    ((runSession defaultOptsModel
        { keepAliveTimeout := defaultOptsModel.keepAliveTimeout, readTimeout := some 75000 }
        [] 1).1).head? =
      some (SEvent.readStart 1
        { keepAliveTimeout := defaultOptsModel.keepAliveTimeout, readTimeout := some 75000 }) :=
  ⟨((c3_keepalive_timeout_negotiation defaultOptsModel defaultOptsModel kaCycle [] 0 kaReq
      rfl (by decide) (by decide) (by decide)).1 5 10 75000 rfl (by decide) rfl).2,
   ((c3_keepalive_timeout_negotiation defaultOptsModel defaultOptsModel okCycle [] 0 plainReq
      rfl (by decide) (by decide) (by decide)).2 rfl).2⟩

/-- C7: the very first read of a fresh connection is issued with the
configured `readTimeout` in both timeout fields — the keep-alive timeout
default is ignored until a negotiation has happened. -/
theorem c7_first_read_uses_read_timeout (opts : ServeOptions) (inputs : List CycleInput) :
    ((handleKeepAliveConn opts inputs).1).head? =
      some (SEvent.readStart 0
        { keepAliveTimeout := opts.readTimeout, readTimeout := opts.readTimeout }) := by
  have h := runSession_head opts (firstCycleOpts opts) inputs 0
  simpa [handleKeepAliveConn, firstCycleOpts] using h


/-- Queue invariant: the fully written jobs, then the active job, then the
pending jobs are exactly the submitted ids `0, 1, …, nextId - 1` in
submission order. -/
theorem queue_order_invariant {s : QueueState} (h : QReach s) :
    s.written ++ s.active.toList ++ s.pending = List.range s.nextId := by
  induction h with
  | init => simp [initQueue]
  | step hr hstep ih =>
    cases hstep with
    | enqueue =>
      simp only [List.range_succ, ← ih]
      simp [List.append_assoc]
    | startWrite j rest hp ha =>
      rw [hp, ha] at ih
      simpa using ih
    | finishWrite j ha =>
      rw [ha] at ih
      simpa [List.append_assoc] using ih

/-- C1: the dispatch queue writes responses to the wire in exactly
submission order.  In every reachable queue state the wire trace `written`
is the initial segment `0, 1, …` of submission ids in order; and whenever
the worker is about to start the front pending job `j` (no write in
progress), exactly the jobs submitted before `j` have already been fully
written: job `N + 1`'s write cannot begin before job `N`'s write has fully
completed, whatever the interleaving of `enqueue` steps — i.e. of handler
completions — was. -/
theorem c1_queue_writes_in_submission_order {s : QueueState} (h : QReach s) :
    s.written = List.range s.written.length ∧
    ∀ j rest, s.pending = j :: rest → s.active = none →
      s.written = List.range j := by
  have hinv := queue_order_invariant h
  rw [List.append_assoc] at hinv
  have hlen : s.written.length ≤ s.nextId := by
    have hl := congrArg List.length hinv
    simp at hl
    omega
  have hpref : s.written = List.range s.written.length := by
    have h1 : (s.written ++ (s.active.toList ++ s.pending)).take s.written.length
        = s.written := List.take_left s.written _
    rw [hinv, List.take_range, min_eq_left hlen] at h1
    exact h1.symm
  refine ⟨hpref, ?_⟩
  intro j rest hp ha
  rw [hp, ha] at hinv
  simp only [Option.toList_none, List.nil_append] at hinv
  have hjlt : s.written.length + 1 ≤ s.nextId := by
    have hl := congrArg List.length hinv
    simp at hl
    omega
  have h2 : (s.written ++ j :: rest).take (s.written.length + 1)
      = s.written ++ (j :: rest).take 1 := List.take_append 1
  rw [hinv, List.take_range, min_eq_left hjlt] at h2
  simp only [List.take_succ_cons, List.take_zero] at h2
  have h4 : s.written ++ [j] = s.written ++ [s.written.length] := by
    rw [← h2, List.range_succ, ← hpref]
  have hj : j = s.written.length := by
    have h5 := List.append_cancel_left h4
    simpa using h5
  rw [hj]
  exact hpref

/-- Witness for C1: after submitting jobs 0 and 1, writing job 0 to
completion and with job 1 at the front of the pending queue and no write in
progress, exactly job 0 is on the wire. -/
theorem c1_witness :
    ({ nextId := 2, pending := [1], active := none, written := [0] } : QueueState).written
      = List.range 1 :=
  (c1_queue_writes_in_submission_order
    (QReach.step
      (QReach.step
        (QReach.step
          (QReach.step QReach.init (QStep.enqueue initQueue))
          (QStep.enqueue _))
        (QStep.startWrite _ 0 [1] rfl rfl))
      (QStep.finishWrite _ 0 rfl))).2 1 [] rfl rfl

/-- C8: supervisor shutdown.  `close` on a not-yet-closed supervisor
resolves the cancellation signal and closes the listening socket exactly
once, and is idempotent — a second call changes nothing and does not close
the socket again.  Once closed, an accept iteration neither spawns a
session nor schedules another accept.  When the cancellation signal (or an
accept failure) wins the race against a pending accept, the accept routine
runs `close` — releasing the socket — and neither spawns nor reschedules. -/
theorem c8_supervisor_close (s : SupervisorState) (hopen : s.closed = false) :
    superviseClose (superviseClose s) = superviseClose s ∧
    (superviseClose s).dResolved = true ∧
    (superviseClose s).listenerCloseCount = s.listenerCloseCount + 1 ∧
    (superviseClose (superviseClose s)).listenerCloseCount = s.listenerCloseCount + 1 ∧
    (∀ t : SupervisorState, t.closed = true →
      ∀ o, acceptRoutine t o = (t, false, false)) ∧
    acceptRoutine s .cancelled = (superviseClose s, false, false) ∧
    acceptRoutine s .failed = (superviseClose s, false, false) ∧
    (∀ o, acceptRoutine (superviseClose s) o = (superviseClose s, false, false)) := by
  have hc : (superviseClose s).closed = true := by
    simp [superviseClose, hopen]
  refine ⟨?_, ?_, ?_, ?_, ?_, ?_, ?_, ?_⟩
  · simp [superviseClose, hopen]
  · simp [superviseClose, hopen]
  · simp [superviseClose, hopen]
  · simp [superviseClose, hopen]
  · intro t ht o
    simp [acceptRoutine, ht]
  · simp [acceptRoutine, hopen]
  · simp [acceptRoutine, hopen]
  · intro o
    simp [acceptRoutine, hc]

/-- Witness for C8 on the fresh supervisor: double close equals single
close, the socket is closed exactly once, and a cancelled pending accept
runs `close` without spawning or rescheduling. -/
theorem c8_witness :
    superviseClose (superviseClose initSupervisor) = superviseClose initSupervisor ∧
    (superviseClose initSupervisor).listenerCloseCount = 1 ∧
    acceptRoutine initSupervisor .cancelled = (superviseClose initSupervisor, false, false) :=
  ⟨(c8_supervisor_close initSupervisor rfl).1,
   (c8_supervisor_close initSupervisor rfl).2.2.1,
   (c8_supervisor_close initSupervisor rfl).2.2.2.2.2.1⟩

/-- C9, evaluation at the failing input: called without options,
`listenAndServe` serves with both documented 75000 ms defaults in force,
while `listenAndServeTls` forwards the empty options object — neither
timeout is set at this layer, so the TLS entry point does not apply the
documented defaults. -/
theorem c9_tls_entry_skips_defaults :
    listenAndServeOpts none =
      { keepAliveTimeout := some 75000, readTimeout := some 75000 } ∧
    listenAndServeTlsOpts none = { keepAliveTimeout := none, readTimeout := none } ∧
    listenAndServeTlsOpts none ≠ listenAndServeOpts none :=
  ⟨rfl, rfl, by decide⟩
